import Mathlib

/-!
Shallow embedding of the data-normalization core of `src/app.py`
(CitiBike 2022 dashboard): the trip-table normalizer `normalize_trips`,
the weather loader `load_weather`, and the data part of the
rides-vs-temperature view `fig_rides_vs_temp`.

A pandas DataFrame is modelled as a list of column names together with a
list of rows, each row an association list from column name to `Value`.
Timestamps are modelled as proleptic-Gregorian calendar timestamps with
second-of-day resolution; `pd.to_datetime(..., errors="coerce")` is
modelled by a parser for `YYYY-MM-DD[ HH:MM[:SS]]` strings that yields
`null` (pandas `NaT`) on anything unparseable.  Numeric values are
rationals.
-/

namespace Citibike

/-- A calendar timestamp (proleptic Gregorian, second resolution). -/
structure Timestamp where
  year : Nat
  month : Nat
  day : Nat
  secondOfDay : Nat
deriving DecidableEq, Repr

/-- A cell value: pandas scalar (string / numeric / timestamp) or NaN/NaT. -/
inductive Value where
  | null
  | str (s : String)
  | num (q : Rat)
  | ts (t : Timestamp)
deriving DecidableEq, Repr

/-! ## Calendar arithmetic (proleptic Gregorian) -/

def isLeap (y : Nat) : Bool :=
  (y % 4 == 0 && y % 100 != 0) || y % 400 == 0

def daysInMonth (y m : Nat) : Nat :=
  if m == 2 then (if isLeap y then 29 else 28)
  else if m == 4 || m == 6 || m == 9 || m == 11 then 30
  else 31

def daysBeforeMonth (y m : Nat) : Nat :=
  (List.range (m - 1)).foldl (fun acc i => acc + daysInMonth y (i + 1)) 0

def daysBeforeYear (y : Nat) : Nat :=
  365 * (y - 1) + (y - 1) / 4 + (y - 1) / 400 - (y - 1) / 100

/-- Days since 0001-01-01 (which is day 0, a Monday). -/
def toOrdinal (t : Timestamp) : Nat :=
  daysBeforeYear t.year + daysBeforeMonth t.year t.month + (t.day - 1)

def totalSeconds (t : Timestamp) : Nat :=
  toOrdinal t * 86400 + t.secondOfDay

/-- `WEEKDAY_ORDER` from `app.py`. -/
def WEEKDAY_ORDER : List String :=
  ["Monday", "Tuesday", "Wednesday", "Thursday", "Friday", "Saturday", "Sunday"]

/-- English weekday name of a timestamp (0001-01-01 is a Monday, as in
Python's `datetime`/pandas `day_name`). -/
def dayNameOf (t : Timestamp) : String :=
  WEEKDAY_ORDER.getD (toOrdinal t % 7) ""

def pad2 (n : Nat) : String := if n < 10 then "0" ++ toString n else toString n

def pad4 (n : Nat) : String :=
  if n < 10 then "000" ++ toString n
  else if n < 100 then "00" ++ toString n
  else if n < 1000 then "0" ++ toString n
  else toString n

/-- The `YYYY-MM` label produced by `dt.to_period("M").astype(str)`. -/
def monthLabel (t : Timestamp) : String := pad4 t.year ++ "-" ++ pad2 t.month

/-! ## Timestamp parsing (model of `pd.to_datetime(..., errors="coerce")`) -/

/-- Split a character list on a separator character (the semantics of
`String.splitOn` for a one-character separator). -/
def splitOnChar (sep : Char) : List Char → List (List Char)
  | [] => [[]]
  | c :: rest =>
    match splitOnChar sep rest with
    | [] => [[]]
    | g :: gs => if c = sep then [] :: g :: gs else (c :: g) :: gs

def digitsToNatCore : List Char → Nat → Option Nat
  | [], acc => some acc
  | c :: rest, acc =>
    if c.isDigit then digitsToNatCore rest (acc * 10 + (c.toNat - 48)) else none

/-- Decimal value of a non-empty all-digit character list. -/
def digitsToNat? (cs : List Char) : Option Nat :=
  match cs with
  | [] => none
  | _ :: _ => digitsToNatCore cs 0

def parseDate (cs : List Char) : Option (Nat × Nat × Nat) :=
  match splitOnChar (Char.ofNat 45) cs with
  | [ys, ms, ds] =>
    if ys.length == 4 && (ms.length == 1 || ms.length == 2) &&
        (ds.length == 1 || ds.length == 2) then
      match digitsToNat? ys, digitsToNat? ms, digitsToNat? ds with
      | some y, some m, some d =>
        if 1 ≤ y ∧ 1 ≤ m ∧ m ≤ 12 ∧ 1 ≤ d ∧ d ≤ daysInMonth y m then
          some (y, m, d)
        else none
      | _, _, _ => none
    else none
  | _ => none

def parseTime (cs : List Char) : Option Nat :=
  match splitOnChar (Char.ofNat 58) cs with
  | [hs, mis] =>
    match digitsToNat? hs, digitsToNat? mis with
    | some h, some mi => if h < 24 ∧ mi < 60 then some (h * 3600 + mi * 60) else none
    | _, _ => none
  | [hs, mis, ss] =>
    match digitsToNat? hs, digitsToNat? mis, digitsToNat? ss with
    | some h, some mi, some sec =>
      if h < 24 ∧ mi < 60 ∧ sec < 60 then some (h * 3600 + mi * 60 + sec) else none
    | _, _, _ => none
  | _ => none

def parseTimestamp (s : String) : Option Timestamp :=
  match splitOnChar (Char.ofNat 32) s.data with
  | [dpart] => (parseDate dpart).map (fun p => ⟨p.1, p.2.1, p.2.2, 0⟩)
  | [dpart, tpart] =>
    match parseDate dpart, parseTime tpart with
    | some p, some sec => some ⟨p.1, p.2.1, p.2.2, sec⟩
    | _, _ => none
  | _ => none

/-- `pd.to_datetime(v, errors="coerce")` on a single cell: timestamps pass
through, parseable strings become timestamps, everything else becomes
NaT.  (Numeric epoch inputs are not modelled; they are treated as
unparseable here, which no claim exercises.) -/
def toDatetimeValue : Value → Value
  | .ts t => .ts t
  | .str s =>
    match parseTimestamp s with
    | some t => .ts t
    | none => .null
  | _ => .null

/-- `.dt.date` followed by `pd.to_datetime`: truncate the time of day to
midnight; NaT stays NaT. -/
def truncateToDate : Value → Value
  | .ts t => .ts { t with secondOfDay := 0 }
  | _ => .null

/-- `(ended_at - started_at).dt.total_seconds() / 60` on one row: NaN if
either side is NaT. -/
def durationMinValue : Value → Value → Value
  | .ts s, .ts e =>
    .num ((((totalSeconds e : Int) - (totalSeconds s : Int) : Int) : Rat) / 60)
  | _, _ => .null

/-- `d["date"].dt.day_name()` on one cell. -/
def dayNameValue : Value → Value
  | .ts t => .str (dayNameOf t)
  | _ => .null

/-- `d["date"].dt.to_period("M").astype(str)` on one cell (pandas renders
`NaT` as the string "NaT"). -/
def monthLabelValue : Value → Value
  | .ts t => .str (monthLabel t)
  | _ => .str "NaT"

/-! ## DataFrame model -/

/-- A row: an association list from column name to value. -/
abbrev Row := List (String × Value)

/-- A DataFrame: ordered column names, rows, and (as pandas dtype
metadata) the categorical orderings attached to columns by
`pd.Categorical(..., categories, ordered=True)`. -/
structure DataFrame where
  cols : List String
  rows : List Row
  catOrders : List (String × List String) := []
deriving DecidableEq, Repr

/-- First binding of key `k` in an association list. -/
def lookupEntry {α : Type} (l : List (String × α)) (k : String) : Option α :=
  (l.find? (fun p => p.1 == k)).map Prod.snd

/-- Overwrite key `k` with `v` in an association list, appending the
binding if the key is absent. -/
def updateEntry {α : Type} (l : List (String × α)) (k : String) (v : α) :
    List (String × α) :=
  if l.any (fun p => p.1 == k) then
    l.map (fun p => if p.1 == k then (k, v) else p)
  else l ++ [(k, v)]

/-- Read a cell; a missing key reads as NaN (pandas would raise, but the
embedded pipeline only reads columns it has established). -/
def getVal (r : Row) (c : String) : Value :=
  (lookupEntry r c).getD .null

/-- Overwrite column `c` of a row with value `v`, appending it if absent. -/
def setRowVal (r : Row) (c : String) (v : Value) : Row :=
  updateEntry r c v

def setAssoc (l : List (String × List String)) (k : String) (v : List String) :
    List (String × List String) :=
  updateEntry l k v

/-- Rename key `old` to `new` in one row. -/
def renameKey (old new : String) (r : Row) : Row :=
  r.map (fun p => if p.1 == old then (new, p.2) else p)

/-- `d.rename(columns={old: new})`. -/
def DataFrame.rename (df : DataFrame) (old new : String) : DataFrame :=
  { df with
    cols := df.cols.map (fun c => if c == old then new else c)
    rows := df.rows.map (renameKey old new) }

/-- `d[c] = <f of the row>`: per-row column assignment. -/
def DataFrame.setCol (df : DataFrame) (c : String) (f : Row → Value) : DataFrame :=
  { df with
    cols := if df.cols.contains c then df.cols else df.cols ++ [c]
    rows := df.rows.map (fun r => setRowVal r c (f r)) }

/-- `d[c] = g(d[c])`: map a cell function over one column. -/
def DataFrame.mapCol (df : DataFrame) (c : String) (g : Value → Value) : DataFrame :=
  df.setCol c (fun r => g (getVal r c))

/-- `w[cs]`: keep only the listed columns (in the given order). -/
def DataFrame.selectCols (df : DataFrame) (cs : List String) : DataFrame :=
  { cols := cs
    rows := df.rows.map (fun r => cs.map (fun c => (c, getVal r c)))
    catOrders := df.catOrders }

/-- A well-formed frame: distinct column names, and every row carries
exactly the frame's columns in order (as a CSV-loaded DataFrame does). -/
def WellFormed (df : DataFrame) : Prop :=
  df.cols.Nodup ∧ ∀ r ∈ df.rows, r.map Prod.fst = df.cols

/-! ## `normalize_trips` (src/app.py lines 63-111) -/

/-- `app.py` line 68: alternate rider-type column names tried in order. -/
def ALT_RIDER_COLS : List String := ["rider_type", "member.casual", "memberCasual"]

/-- `app.py` line 75: date-like column candidates tried in order. -/
def DATE_CANDIDATES : List String := ["date", "started_at", "start_time", "start_datetime"]

/-- `app.py` line 92: alternate duration column names tried in order. -/
def DURATION_GUESSES : List String :=
  ["trip_duration", "duration_min", "ride_length_min", "ride_duration_min", "tripduration_min"]

/-- `app.py` line 80: the fatal missing-date-column message. -/
def MISSING_DATE_MSG : String :=
  "Could not find a date column. Expected one of: date, started_at, start_time, start_datetime."

/-- Lines 67-71: rename the first matching alternate rider-type column to
`member_casual` when the canonical name is absent. -/
def standardizeRider (d : DataFrame) : DataFrame :=
  if d.cols.contains "member_casual" then d
  else
    match ALT_RIDER_COLS.find? (fun a => d.cols.contains a) with
    | some alt => d.rename alt "member_casual"
    | none => d

/-- Lines 74-78: the first date-like column present, if any. -/
def resolveDateCol (cols : List String) : Option String :=
  DATE_CANDIDATES.find? (fun c => cols.contains c)

/-- Lines 83-87: parse the date source column, copy it to `date` when
needed, and truncate `date` to midnight. -/
def applyDate (d : DataFrame) (dateCol : String) : DataFrame :=
  let d := d.mapCol dateCol toDatetimeValue
  let d := if dateCol != "date" then d.setCol "date" (fun r => getVal r dateCol) else d
  d.mapCol "date" truncateToDate

/-- Lines 90-102: resolve `trip_duration_min` — keep it if present, else
copy the first alternate duration column, else derive it from parsed
`started_at`/`ended_at` when both exist. -/
def applyDuration (d : DataFrame) : DataFrame :=
  if d.cols.contains "trip_duration_min" then d
  else
    match DURATION_GUESSES.find? (fun g => d.cols.contains g) with
    | some g => d.setCol "trip_duration_min" (fun r => getVal r g)
    | none =>
      if d.cols.contains "started_at" && d.cols.contains "ended_at" then
        let d := d.mapCol "started_at" toDatetimeValue
        let d := d.mapCol "ended_at" toDatetimeValue
        d.setCol "trip_duration_min"
          (fun r => durationMinValue (getVal r "started_at") (getVal r "ended_at"))
      else d

/-- Lines 104-106: weekday name column, made categorical with the fixed
`WEEKDAY_ORDER`. -/
def applyDow (d : DataFrame) : DataFrame :=
  let d := d.setCol "day_of_week" (fun r => dayNameValue (getVal r "date"))
  { d with catOrders := setAssoc d.catOrders "day_of_week" WEEKDAY_ORDER }

/-- Line 109: `YYYY-MM` month label column. -/
def applyMonth (d : DataFrame) : DataFrame :=
  d.setCol "month" (fun r => monthLabelValue (getVal r "date"))

/-- Result of `normalize_trips`: the returned table, plus the `st.error`
message signalled when no date-like column exists (the code then returns
the table as-is). -/
structure NormalizeResult where
  error : Option String
  table : DataFrame
deriving DecidableEq, Repr

/-- `normalize_trips` (src/app.py lines 63-111). -/
def normalize_trips (df : DataFrame) : NormalizeResult :=
  let d := standardizeRider df
  match resolveDateCol d.cols with
  | none => { error := some MISSING_DATE_MSG, table := d }
  | some dateCol =>
    { error := none
      table := applyMonth (applyDow (applyDuration (applyDate d dateCol))) }

/-! ## `load_weather` (src/app.py lines 114-126) -/

/-- Line 122: candidate average-temperature column names tried in order. -/
def WEATHER_TEMP_CANDIDATES : List String :=
  ["avg_temp_f", "tavg_f", "tavg", "temp_avg_f", "avg_temp_f_tenths"]

/-- `w[temp_col] / 10.0` on one cell (non-numeric cells are not exercised
by the pipeline; they map to NaN here). -/
def div10Value : Value → Value
  | .num q => .num (q / 10)
  | _ => .null

/-- `load_weather` (src/app.py lines 114-126).  The argument is `none`
when the path is empty or the file does not exist (line 116); otherwise
it is the CSV contents as a frame.  `parse_dates=["date"]` and the
date truncation of lines 118-120 are modelled on the `date` column; the
result keeps only the columns among `date` and the resolved temperature
column, with a tenths-scaled source divided by 10 under the new name
`avg_temp_f`. -/
def load_weather (file : Option DataFrame) : Option DataFrame :=
  match file with
  | none => none
  | some w0 =>
    let w := (w0.mapCol "date" toDatetimeValue).mapCol "date" truncateToDate
    let tempCol := WEATHER_TEMP_CANDIDATES.find? (fun c => w.cols.contains c)
    let wt : DataFrame × Option String :=
      if tempCol == some "avg_temp_f_tenths" then
        (w.setCol "avg_temp_f" (fun r => div10Value (getVal r "avg_temp_f_tenths")),
         some "avg_temp_f")
      else (w, tempCol)
    some (wt.1.selectCols
      (wt.1.cols.filter (fun c => c == "date" || some c == wt.2)))

/-! ## `fig_rides_vs_temp` data (src/app.py lines 178-190) -/

/-- Insert a timestamp into a list sorted by `totalSeconds`, skipping
duplicates (helper for the sorted unique group keys of `groupby`). -/
def insertTs (t : Timestamp) : List Timestamp → List Timestamp
  | [] => [t]
  | u :: us =>
    if t = u then u :: us
    else if totalSeconds t < totalSeconds u then t :: u :: us
    else u :: insertTs t us

def sortedUnique (ts : List Timestamp) : List Timestamp :=
  ts.foldl (fun acc t => insertTs t acc) []

/-- Line 180: `df.groupby("date").size().reset_index(name="rides")` —
daily ride counts, keyed by the distinct non-null dates in ascending
order (pandas `groupby` sorts keys and drops NaT keys). -/
def daily_rides (df : DataFrame) : DataFrame :=
  let dates := df.rows.filterMap (fun r =>
    match getVal r "date" with
    | .ts t => some t
    | _ => none)
  { cols := ["date", "rides"]
    rows := (sortedUnique dates).map (fun t =>
      [("date", Value.ts t), ("rides", Value.num (dates.count t))]) }

/-- Line 189: `daily.merge(weather, on="date", how="inner")` — inner join
on exact key equality (NaN keys never match), left row order preserved,
right columns other than the key appended. -/
def merge_inner (l r : DataFrame) (key : String) : DataFrame :=
  { cols := l.cols ++ r.cols.filter (fun c => c != key)
    rows := l.rows.flatMap (fun lr =>
      (r.rows.filter (fun rr =>
        match getVal lr key, getVal rr key with
        | .ts a, .ts b => a = b
        | _, _ => false)).map (fun rr =>
          lr ++ rr.filter (fun p => p.1 != key))) }

/-- Line 190: the temperature column the chart reads from the merged
frame. -/
def MERGED_TEMP_CANDIDATES : List String := ["avg_temp_f", "tavg_f", "tavg", "temp_avg_f"]

/-- The two first-class outcomes of `fig_rides_vs_temp`: a rides-only
daily series when weather is absent, or the inner-joined daily frame
with its resolved temperature column when weather is present. -/
inductive RidesTempView where
  | ridesOnly (daily : DataFrame)
  | withTemp (merged : DataFrame) (tempCol : Option String)
deriving DecidableEq, Repr

/-- The data computed by `fig_rides_vs_temp` (src/app.py lines 178-190),
stripped of plotting. -/
def fig_rides_vs_temp_data (df : DataFrame) (weather : Option DataFrame) :
    RidesTempView :=
  let daily := daily_rides df
  match weather with
  | none => .ridesOnly daily
  | some w =>
    let m := merge_inner daily w "date"
    .withTemp m (MERGED_TEMP_CANDIDATES.find? (fun c => m.cols.contains c))

/-- The categorical ordering pandas records for a column, if any. -/
def catOrderOf (d : DataFrame) (c : String) : Option (List String) :=
  lookupEntry d.catOrders c

/-- The value of column `x` in row `i`, as seen through `Option`. -/
def colView (d : DataFrame) (x : String) (i : Nat) : Option Value :=
  (d.rows[i]?).map (fun r => getVal r x)

/-! ## Association-list lemmas -/

theorem find?_pred_congr {α : Type} {p q : α → Bool} :
    ∀ l : List α, (∀ a ∈ l, p a = q a) → l.find? p = l.find? q := by
  intro l h
  induction l with
  | nil => rfl
  | cons a t ih =>
    rw [List.find?_cons, List.find?_cons, h a (List.mem_cons_self a t)]
    cases q a
    · exact ih (fun b hb => h b (List.mem_cons_of_mem a hb))
    · rfl

theorem find?_key_map_update {α : Type} (l : List (String × α)) (k x : String)
    (v : α) :
    List.find? (fun p => p.1 == x) (l.map (fun p => if p.1 == k then (k, v) else p)) =
      Option.map (fun p => if p.1 == k then (k, v) else p)
        (List.find? (fun p => p.1 == x) l) := by
  rw [List.find?_map]
  congr 1
  apply find?_pred_congr
  intro p _
  by_cases hp : p.1 = k <;> simp [hp, Function.comp]

theorem lookupEntry_updateEntry_self {α : Type} (l : List (String × α)) (k : String)
    (v : α) : lookupEntry (updateEntry l k v) k = some v := by
  unfold updateEntry
  split
  case isTrue h =>
    obtain ⟨p, hpl, hpk⟩ := List.any_eq_true.mp h
    have hsome : (List.find? (fun p => p.1 == k) l).isSome :=
      List.find?_isSome.mpr ⟨p, hpl, hpk⟩
    obtain ⟨q, hq⟩ := Option.isSome_iff_exists.mp hsome
    have hqk : (q.1 == k) = true := by simpa using List.find?_some hq
    rw [lookupEntry, find?_key_map_update, hq]
    simp [beq_iff_eq.mp hqk]
  case isFalse h =>
    have hnone : List.find? (fun p => p.1 == k) l = none := by
      rw [List.find?_eq_none]
      intro p hpl
      by_contra hc
      exact h (List.any_eq_true.mpr ⟨p, hpl, by simpa using hc⟩)
    simp [lookupEntry, List.find?_append, hnone, List.find?_cons]

theorem lookupEntry_updateEntry_ne {α : Type} (l : List (String × α)) (k k' : String)
    (v : α) (hk : k' ≠ k) :
    lookupEntry (updateEntry l k v) k' = lookupEntry l k' := by
  unfold updateEntry
  split
  case isTrue h =>
    rw [lookupEntry, find?_key_map_update, lookupEntry]
    cases hq : List.find? (fun p => p.1 == k') l with
    | none => rfl
    | some q =>
      have hqk : (q.1 == k') = true := by simpa using List.find?_some hq
      have : q.1 ≠ k := by
        intro hqeq
        exact hk (by rw [← hqeq]; exact (beq_iff_eq.mp hqk).symm)
      simp [this]
  case isFalse h =>
    have hk' : (k == k') = false := beq_eq_false_iff_ne.mpr (Ne.symm hk)
    simp [lookupEntry, List.find?_append, List.find?_cons, hk']

theorem getVal_setRowVal_self (r : Row) (c : String) (v : Value) :
    getVal (setRowVal r c v) c = v := by
  simp [getVal, setRowVal, lookupEntry_updateEntry_self]

theorem getVal_setRowVal_ne (r : Row) (c x : String) (v : Value) (h : x ≠ c) :
    getVal (setRowVal r c v) x = getVal r x := by
  simp [getVal, setRowVal, lookupEntry_updateEntry_ne _ _ _ _ h]

/-! ## Row-rename lemmas -/

theorem getVal_renameKey_new (r : Row) (old new : String)
    (hnew : ∀ p ∈ r, p.1 ≠ new) :
    getVal (renameKey old new r) new = getVal r old := by
  rw [renameKey, getVal, getVal, lookupEntry, lookupEntry, List.find?_map]
  have hcongr :
      List.find? ((fun p => p.1 == new) ∘
          fun p => if p.1 == old then (new, p.2) else p) r =
        List.find? (fun p => p.1 == old) r := by
    apply find?_pred_congr
    intro p hp
    by_cases hq : p.1 = old
    · simp [hq, Function.comp]
    · simp [hq, hnew p hp, Function.comp]
  rw [hcongr]
  cases hfind : List.find? (fun p => p.1 == old) r with
  | none => rfl
  | some q =>
    have hq : (q.1 == old) = true := by simpa using List.find?_some hfind
    simp [beq_iff_eq.mp hq]

theorem getVal_renameKey_ne (r : Row) (old new x : String)
    (hxo : x ≠ old) (hxn : x ≠ new) :
    getVal (renameKey old new r) x = getVal r x := by
  rw [renameKey, getVal, getVal, lookupEntry, lookupEntry, List.find?_map]
  have hcongr :
      List.find? ((fun p => p.1 == x) ∘
          fun p => if p.1 == old then (new, p.2) else p) r =
        List.find? (fun p => p.1 == x) r := by
    apply find?_pred_congr
    intro p _
    by_cases hq : p.1 = old
    · simp [hq, Ne.symm hxn, Ne.symm hxo, Function.comp]
    · simp [hq, Function.comp]
  rw [hcongr]
  cases hfind : List.find? (fun p => p.1 == x) r with
  | none => rfl
  | some q =>
    have hq : (q.1 == x) = true := by simpa using List.find?_some hfind
    have : q.1 ≠ old := by rw [beq_iff_eq.mp hq]; exact hxo
    simp [this]

theorem mem_rename_cols (df : DataFrame) (old new x : String)
    (h : x ∈ (df.rename old new).cols) : x = new ∨ x ∈ df.cols := by
  simp only [DataFrame.rename, List.mem_map] at h
  obtain ⟨c, hc, hcx⟩ := h
  by_cases hco : c = old
  · left; rw [hco] at hcx; simpa using hcx.symm
  · right
    have hb : (c == old) = false := by simp [hco]
    simp only [hb, Bool.false_eq_true, if_false] at hcx
    exact hcx ▸ hc

theorem new_mem_rename_cols (df : DataFrame) (old new : String)
    (h : old ∈ df.cols) : new ∈ (df.rename old new).cols := by
  simp only [DataFrame.rename, List.mem_map]
  exact ⟨old, h, by simp⟩

/-! ## Column-assignment lemmas -/

theorem setCol_rows_length (df : DataFrame) (c : String) (f : Row → Value) :
    (df.setCol c f).rows.length = df.rows.length := by
  simp [DataFrame.setCol]

theorem colView_setCol_ne (df : DataFrame) (c x : String) (f : Row → Value) (i : Nat)
    (h : x ≠ c) : colView (df.setCol c f) x i = colView df x i := by
  simp only [colView, DataFrame.setCol, List.getElem?_map]
  cases df.rows[i]? with
  | none => rfl
  | some r => simp [getVal_setRowVal_ne r c x (f r) h]

theorem colView_setCol_self (df : DataFrame) (c : String) (f : Row → Value) (i : Nat) :
    colView (df.setCol c f) c i = (df.rows[i]?).map f := by
  simp only [colView, DataFrame.setCol, List.getElem?_map]
  cases df.rows[i]? with
  | none => rfl
  | some r => simp [getVal_setRowVal_self r c (f r)]

theorem setCol_rows_getElem (df : DataFrame) (c : String) (f : Row → Value) (i : Nat) :
    (df.setCol c f).rows[i]? = (df.rows[i]?).map (fun r => setRowVal r c (f r)) := by
  simp [DataFrame.setCol, List.getElem?_map]

theorem mem_setCol_cols_iff (df : DataFrame) (c x : String) (f : Row → Value) :
    x ∈ (df.setCol c f).cols ↔ x ∈ df.cols ∨ x = c := by
  simp only [DataFrame.setCol]
  by_cases h : df.cols.contains c
  · rw [if_pos h]
    constructor
    · exact fun hx => Or.inl hx
    · rintro (hx | rfl)
      · exact hx
      · simpa using h
  · rw [if_neg h]
    simp [List.mem_append]

theorem mem_mapCol_cols_iff (df : DataFrame) (c x : String) (g : Value → Value) :
    x ∈ (df.mapCol c g).cols ↔ x ∈ df.cols ∨ x = c :=
  mem_setCol_cols_iff df c x _

theorem colView_mapCol_ne (df : DataFrame) (c x : String) (g : Value → Value) (i : Nat)
    (h : x ≠ c) : colView (df.mapCol c g) x i = colView df x i :=
  colView_setCol_ne df c x _ i h

theorem colView_mapCol_self (df : DataFrame) (c : String) (g : Value → Value) (i : Nat) :
    colView (df.mapCol c g) c i = (colView df c i).map g := by
  rw [DataFrame.mapCol, colView_setCol_self]
  rw [colView, Option.map_map]
  rfl

theorem mapCol_rows_length (df : DataFrame) (c : String) (g : Value → Value) :
    (df.mapCol c g).rows.length = df.rows.length :=
  setCol_rows_length df c _

theorem setCol_catOrders (df : DataFrame) (c : String) (f : Row → Value) :
    (df.setCol c f).catOrders = df.catOrders := rfl

/-! ## Stage lemmas for `normalize_trips` -/

theorem mem_standardizeRider_cols (d : DataFrame) (x : String)
    (h : x ∈ (standardizeRider d).cols) : x = "member_casual" ∨ x ∈ d.cols := by
  unfold standardizeRider at h
  split at h
  · exact Or.inr h
  · split at h
    · exact mem_rename_cols d _ _ x h
    · exact Or.inr h

theorem standardizeRider_eq_rename (d : DataFrame) (alt : String)
    (h1 : d.cols.contains "member_casual" = false)
    (h2 : ALT_RIDER_COLS.find? (fun a => d.cols.contains a) = some alt) :
    standardizeRider d = d.rename alt "member_casual" := by
  unfold standardizeRider
  split
  case isTrue h => rw [h1] at h; exact Bool.noConfusion h
  case isFalse h =>
    split
    case h_1 alt' halt' =>
      rw [h2] at halt'
      cases halt'
      rfl
    case h_2 hnone =>
      rw [h2] at hnone
      cases hnone

theorem colView_standardizeRider_ne (d : DataFrame) (x : String) (i : Nat)
    (hx1 : x ∉ ALT_RIDER_COLS) (hx2 : x ≠ "member_casual") :
    colView (standardizeRider d) x i = colView d x i := by
  unfold standardizeRider
  split
  · rfl
  · split
    case _ alt halt =>
      have hmem : alt ∈ ALT_RIDER_COLS := List.mem_of_find?_eq_some halt
      have hxa : x ≠ alt := fun h => hx1 (h ▸ hmem)
      simp only [colView, DataFrame.rename, List.getElem?_map]
      cases d.rows[i]? with
      | none => rfl
      | some r => simp [getVal_renameKey_ne r alt "member_casual" x hxa hx2]
    · rfl

theorem standardizeRider_rows_length (d : DataFrame) :
    (standardizeRider d).rows.length = d.rows.length := by
  unfold standardizeRider
  split
  · rfl
  · split
    · simp [DataFrame.rename]
    · rfl

/-! ### `applyDate` -/

theorem applyDate_rows_length (d : DataFrame) (c : String) :
    (applyDate d c).rows.length = d.rows.length := by
  unfold applyDate
  split <;> simp [setCol_rows_length, mapCol_rows_length]

theorem colView_applyDate_ne (d : DataFrame) (c x : String) (i : Nat)
    (hx1 : x ≠ c) (hx2 : x ≠ "date") :
    colView (applyDate d c) x i = colView d x i := by
  unfold applyDate
  split
  · rw [colView_mapCol_ne _ _ _ _ _ hx2, colView_setCol_ne _ _ _ _ _ hx2,
      colView_mapCol_ne _ _ _ _ _ hx1]
  · rw [colView_mapCol_ne _ _ _ _ _ hx2, colView_mapCol_ne _ _ _ _ _ hx1]

theorem colView_applyDate_date (d : DataFrame) (c : String) (i : Nat) :
    colView (applyDate d c) "date" i =
      (colView d c i).map (fun v => truncateToDate (toDatetimeValue v)) := by
  unfold applyDate
  split
  case isTrue h =>
    have hc : c ≠ "date" := by simpa using h
    rw [colView_mapCol_self, colView_setCol_self]
    have : ((d.mapCol c toDatetimeValue).rows[i]?).map (fun r => getVal r c) =
        colView (d.mapCol c toDatetimeValue) c i := rfl
    rw [this, colView_mapCol_self]
    simp [Option.map_map]
    rfl
  case isFalse h =>
    have hc : c = "date" := by simpa using h
    subst hc
    rw [colView_mapCol_self, colView_mapCol_self]
    simp [Option.map_map]
    rfl

theorem colView_applyDate_dateCol (d : DataFrame) (c : String) (i : Nat)
    (h : c ≠ "date") :
    colView (applyDate d c) c i = (colView d c i).map toDatetimeValue := by
  unfold applyDate
  split
  case isTrue =>
    rw [colView_mapCol_ne _ _ _ _ _ h, colView_setCol_ne _ _ _ _ _ h,
      colView_mapCol_self]
  case isFalse hfalse => exact absurd (by simpa using hfalse) h

theorem mem_applyDate_cols (d : DataFrame) (c x : String) (hc : c ∈ d.cols) :
    x ∈ (applyDate d c).cols ↔ x ∈ d.cols ∨ x = "date" := by
  unfold applyDate
  split
  · dsimp only
    rw [mem_mapCol_cols_iff, mem_setCol_cols_iff, mem_mapCol_cols_iff]
    constructor
    · rintro (((h | rfl) | rfl) | rfl)
      · exact Or.inl h
      · exact Or.inl hc
      · exact Or.inr rfl
      · exact Or.inr rfl
    · rintro (h | rfl)
      · exact Or.inl (Or.inl (Or.inl h))
      · exact Or.inl (Or.inr rfl)
  case isFalse h =>
    have hc' : c = "date" := by simpa using h
    subst hc'
    dsimp only
    rw [mem_mapCol_cols_iff, mem_mapCol_cols_iff]
    constructor
    · rintro ((h | rfl) | rfl)
      · exact Or.inl h
      · exact Or.inl hc
      · exact Or.inl hc
    · rintro (h | rfl)
      · exact Or.inl (Or.inl h)
      · exact Or.inl (Or.inr rfl)

/-! ### `applyDuration` -/

theorem applyDuration_rows_length (d : DataFrame) :
    (applyDuration d).rows.length = d.rows.length := by
  unfold applyDuration
  split
  · rfl
  · split
    · exact setCol_rows_length d _ _
    · split
      · dsimp only
        rw [setCol_rows_length, mapCol_rows_length, mapCol_rows_length]
      · rfl

theorem colView_applyDuration_ne (d : DataFrame) (x : String) (i : Nat)
    (hx1 : x ≠ "trip_duration_min") (hx2 : x ≠ "started_at") (hx3 : x ≠ "ended_at") :
    colView (applyDuration d) x i = colView d x i := by
  unfold applyDuration
  split
  · rfl
  · split
    · exact colView_setCol_ne d _ x _ i hx1
    · split
      · dsimp only
        rw [colView_setCol_ne _ _ _ _ _ hx1, colView_mapCol_ne _ _ _ _ _ hx3,
          colView_mapCol_ne _ _ _ _ _ hx2]
      · rfl

theorem applyDuration_of_present (d : DataFrame)
    (h : d.cols.contains "trip_duration_min" = true) : applyDuration d = d := by
  unfold applyDuration
  rw [h]
  rfl

theorem colView_applyDuration_guess (d : DataFrame) (g : String) (i : Nat)
    (h1 : d.cols.contains "trip_duration_min" = false)
    (h2 : DURATION_GUESSES.find? (fun g => d.cols.contains g) = some g) :
    colView (applyDuration d) "trip_duration_min" i = colView d g i := by
  unfold applyDuration
  rw [h1]
  simp only [Bool.false_eq_true, if_false]
  split
  case h_1 g' hg' =>
    rw [h2] at hg'
    cases hg'
    exact colView_setCol_self d _ _ i
  case h_2 hnone =>
    rw [h2] at hnone
    cases hnone

theorem colView_applyDuration_derived (d : DataFrame) (i : Nat)
    (h1 : d.cols.contains "trip_duration_min" = false)
    (h2 : DURATION_GUESSES.find? (fun g => d.cols.contains g) = none)
    (h3 : (d.cols.contains "started_at" && d.cols.contains "ended_at") = true) :
    colView (applyDuration d) "trip_duration_min" i =
      (d.rows[i]?).map (fun r =>
        durationMinValue (toDatetimeValue (getVal r "started_at"))
          (toDatetimeValue (getVal r "ended_at"))) := by
  unfold applyDuration
  rw [h1]
  simp only [Bool.false_eq_true, if_false]
  split
  case h_1 g' hg' =>
    rw [h2] at hg'
    cases hg'
  case h_2 =>
    rw [if_pos h3]
    rw [colView_setCol_self, DataFrame.mapCol, DataFrame.mapCol,
      setCol_rows_getElem, setCol_rows_getElem, Option.map_map, Option.map_map]
    cases d.rows[i]? with
    | none => rfl
    | some r =>
      have hne : ("started_at" : String) ≠ "ended_at" := by decide
      show some _ = some _
      congr 1
      simp only [Function.comp_apply]
      rw [getVal_setRowVal_ne _ _ _ _ hne, getVal_setRowVal_self,
        getVal_setRowVal_self, getVal_setRowVal_ne _ _ _ _ (Ne.symm hne)]

theorem applyDuration_of_unavailable (d : DataFrame)
    (h1 : d.cols.contains "trip_duration_min" = false)
    (h2 : DURATION_GUESSES.find? (fun g => d.cols.contains g) = none)
    (h3 : (d.cols.contains "started_at" && d.cols.contains "ended_at") = false) :
    applyDuration d = d := by
  unfold applyDuration
  rw [h1]
  simp only [Bool.false_eq_true, if_false]
  split
  case h_1 g' hg' =>
    rw [h2] at hg'
    cases hg'
  case h_2 =>
    rw [h3]
    rfl

theorem mem_applyDuration_cols (d : DataFrame) (x : String)
    (h : x ∈ (applyDuration d).cols) : x ∈ d.cols ∨ x = "trip_duration_min" := by
  unfold applyDuration at h
  split at h
  · exact Or.inl h
  · split at h
    · exact (mem_setCol_cols_iff d _ x _).mp h
    · split at h
      case isTrue hb =>
        have hse : "started_at" ∈ d.cols ∧ "ended_at" ∈ d.cols := by
          rw [Bool.and_eq_true] at hb
          exact ⟨by simpa using hb.1, by simpa using hb.2⟩
        rcases (mem_setCol_cols_iff _ _ x _).mp h with h' | h'
        · rcases (mem_mapCol_cols_iff _ _ x _).mp h' with h'' | h''
          · rcases (mem_mapCol_cols_iff _ _ x _).mp h'' with h3 | h3
            · exact Or.inl h3
            · exact Or.inl (h3 ▸ hse.1)
          · exact Or.inl (h'' ▸ hse.2)
        · exact Or.inr h'
      case isFalse => exact Or.inl h

theorem mem_applyDuration_cols_mono (d : DataFrame) (x : String)
    (h : x ∈ d.cols) : x ∈ (applyDuration d).cols := by
  unfold applyDuration
  split
  · exact h
  · split
    · exact (mem_setCol_cols_iff d _ x _).mpr (Or.inl h)
    · split
      · dsimp only
        exact (mem_setCol_cols_iff _ _ x _).mpr (Or.inl
          ((mem_mapCol_cols_iff _ _ x _).mpr (Or.inl
            ((mem_mapCol_cols_iff _ _ x _).mpr (Or.inl h)))))
      · exact h

/-! ### `applyDow` and `applyMonth` -/

theorem applyDow_rows (d : DataFrame) :
    (applyDow d).rows = (d.setCol "day_of_week"
      (fun r => dayNameValue (getVal r "date"))).rows := rfl

theorem applyDow_rows_length (d : DataFrame) :
    (applyDow d).rows.length = d.rows.length := by
  rw [applyDow_rows, setCol_rows_length]

theorem applyDow_catOrders (d : DataFrame) :
    catOrderOf (applyDow d) "day_of_week" = some WEEKDAY_ORDER := by
  unfold applyDow catOrderOf
  exact lookupEntry_updateEntry_self _ _ _

theorem dow_invariant (d : DataFrame) :
    ∀ r ∈ (applyDow d).rows,
      getVal r "day_of_week" = dayNameValue (getVal r "date") := by
  intro r hr
  rw [applyDow_rows] at hr
  simp only [DataFrame.setCol, List.mem_map] at hr
  obtain ⟨r₀, _, rfl⟩ := hr
  rw [getVal_setRowVal_self, getVal_setRowVal_ne _ _ _ _ (by decide : "date" ≠ "day_of_week")]

theorem applyMonth_rows_length (d : DataFrame) :
    (applyMonth d).rows.length = d.rows.length :=
  setCol_rows_length d _ _

theorem applyMonth_catOrders (d : DataFrame) :
    (applyMonth d).catOrders = d.catOrders := rfl

theorem applyMonth_row_preserves (d : DataFrame) :
    ∀ r ∈ (applyMonth d).rows, ∃ r₀ ∈ d.rows,
      getVal r "day_of_week" = getVal r₀ "day_of_week" ∧
      getVal r "date" = getVal r₀ "date" := by
  intro r hr
  simp only [applyMonth, DataFrame.setCol, List.mem_map] at hr
  obtain ⟨r₀, hr₀, rfl⟩ := hr
  refine ⟨r₀, hr₀, ?_, ?_⟩
  · exact getVal_setRowVal_ne _ _ _ _ (by decide : "day_of_week" ≠ "month")
  · exact getVal_setRowVal_ne _ _ _ _ (by decide : "date" ≠ "month")

/-- Unfolding of `normalize_trips` in the successful case. -/
theorem normalize_trips_of_dateCol (df : DataFrame) (c : String)
    (h : resolveDateCol (standardizeRider df).cols = some c) :
    normalize_trips df =
      { error := none
        table := applyMonth (applyDow (applyDuration
          (applyDate (standardizeRider df) c))) } := by
  unfold normalize_trips
  dsimp only
  split
  case h_1 hnone =>
    rw [h] at hnone
    cases hnone
  case h_2 c' hc' =>
    rw [h] at hc'
    cases hc'
    rfl

/-- Unfolding of `normalize_trips` in the missing-date-column case. -/
theorem normalize_trips_of_no_dateCol (df : DataFrame)
    (h : resolveDateCol (standardizeRider df).cols = none) :
    normalize_trips df =
      { error := some MISSING_DATE_MSG, table := standardizeRider df } := by
  unfold normalize_trips
  dsimp only
  split
  case h_1 => rfl
  case h_2 c' hc' =>
    rw [h] at hc'
    cases hc'

/-! ## Further helper lemmas -/

theorem toDatetimeValue_idem (v : Value) :
    toDatetimeValue (toDatetimeValue v) = toDatetimeValue v := by
  cases v with
  | ts t => rfl
  | str s =>
    rw [toDatetimeValue]
    cases parseTimestamp s <;> rfl
  | null => rfl
  | num q => rfl

theorem getVal_append_left (r x : Row) (c : String) (h : getVal r c ≠ .null) :
    getVal (r ++ x) c = getVal r c := by
  rw [getVal, getVal, lookupEntry, lookupEntry, List.find?_append]
  cases hf : List.find? (fun p => p.1 == c) r with
  | none =>
    exfalso
    apply h
    rw [getVal, lookupEntry, hf]
    rfl
  | some p => rfl

theorem getVal_projRow (cs : List String) (r : Row) (x : String) (hx : x ∈ cs) :
    getVal (cs.map (fun c => (c, getVal r c))) x = getVal r x := by
  induction cs with
  | nil => cases hx
  | cons c cs ih =>
    by_cases hc : c = x
    · subst hc
      simp [getVal, lookupEntry, List.find?_cons]
    · have hb : (c == x) = false := by simp [hc]
      have hx' : x ∈ cs := by
        rcases List.mem_cons.mp hx with h | h
        · exact absurd h.symm hc
        · exact h
      simpa [getVal, lookupEntry, List.find?_cons, hb] using ih hx'

theorem colView_selectCols (df : DataFrame) (cs : List String) (x : String) (i : Nat)
    (hx : x ∈ cs) : colView (df.selectCols cs) x i = colView df x i := by
  simp only [colView, DataFrame.selectCols, List.getElem?_map]
  cases df.rows[i]? with
  | none => rfl
  | some r => simp [getVal_projRow cs r x hx]

theorem colView_applyDow_ne (d : DataFrame) (x : String) (i : Nat)
    (h : x ≠ "day_of_week") : colView (applyDow d) x i = colView d x i :=
  colView_setCol_ne d "day_of_week" x _ i h

theorem colView_applyMonth_ne (d : DataFrame) (x : String) (i : Nat)
    (h : x ≠ "month") : colView (applyMonth d) x i = colView d x i :=
  colView_setCol_ne d "month" x _ i h

theorem mem_applyDow_cols_mono (d : DataFrame) (x : String) (h : x ∈ d.cols) :
    x ∈ (applyDow d).cols := by
  show x ∈ (d.setCol "day_of_week" (fun r => dayNameValue (getVal r "date"))).cols
  exact (mem_setCol_cols_iff d "day_of_week" x _).mpr (Or.inl h)

theorem mem_applyMonth_cols_mono (d : DataFrame) (x : String) (h : x ∈ d.cols) :
    x ∈ (applyMonth d).cols :=
  (mem_setCol_cols_iff d "month" x _).mpr (Or.inl h)

theorem mem_applyDow_cols (d : DataFrame) (x : String)
    (h : x ∈ (applyDow d).cols) : x ∈ d.cols ∨ x = "day_of_week" := by
  have h' : x ∈ (d.setCol "day_of_week" (fun r => dayNameValue (getVal r "date"))).cols := h
  exact (mem_setCol_cols_iff d "day_of_week" x _).mp h'

theorem mem_applyMonth_cols (d : DataFrame) (x : String)
    (h : x ∈ (applyMonth d).cols) : x ∈ d.cols ∨ x = "month" :=
  (mem_setCol_cols_iff d "month" x _).mp h

theorem mem_standardizeRider_cols_mono (d : DataFrame) (x : String)
    (h : x ∈ d.cols) (hx : x ∉ ALT_RIDER_COLS) :
    x ∈ (standardizeRider d).cols := by
  unfold standardizeRider
  split
  · exact h
  · split
    case h_1 alt halt =>
      have haltmem : alt ∈ ALT_RIDER_COLS := List.mem_of_find?_eq_some halt
      have hxa : (x == alt) = false := by
        simp only [beq_eq_false_iff_ne]
        intro hxe
        exact hx (hxe ▸ haltmem)
      simp only [DataFrame.rename, List.mem_map]
      exact ⟨x, h, by simp [hxa]⟩
    · exact h

theorem dayNameOf_mem (t : Timestamp) : dayNameOf t ∈ WEEKDAY_ORDER := by
  rw [dayNameOf]
  have h7 : toOrdinal t % 7 < 7 := Nat.mod_lt _ (by norm_num)
  rw [List.getD_eq_getElem?_getD, List.getElem?_eq_getElem (by simpa [WEEKDAY_ORDER] using h7)]
  exact List.getElem_mem _

theorem normalize_table_rows_length (df : DataFrame) :
    (normalize_trips df).table.rows.length = df.rows.length := by
  cases hres : resolveDateCol (standardizeRider df).cols with
  | none =>
    rw [normalize_trips_of_no_dateCol df hres]
    exact standardizeRider_rows_length df
  | some c =>
    rw [normalize_trips_of_dateCol df c hres]
    show (applyMonth _).rows.length = _
    rw [applyMonth_rows_length, applyDow_rows_length, applyDuration_rows_length,
      applyDate_rows_length, standardizeRider_rows_length]

/-- Line 122 as a projection of the raw weather frame: the first
temperature candidate column present. -/
def weatherTempSource (w : DataFrame) : Option String :=
  WEATHER_TEMP_CANDIDATES.find? (fun c => w.cols.contains c)

/-! ## Concrete example frames -/

def exC1 : DataFrame := { cols := ["ride_id"], rows := [[("ride_id", Value.num 1)]] }

def exC2 : DataFrame :=
  { cols := ["usertype", "started_at"]
    rows := [[("usertype", Value.str "Subscriber"),
              ("started_at", Value.str "2022-03-01 08:00")]] }

def exC3 : DataFrame :=
  { cols := ["started_at", "ended_at"]
    rows := [[("started_at", Value.str "2022-03-01 08:15"),
              ("ended_at", Value.str "2022-03-01 08:00")]] }

def exC4 : DataFrame :=
  { cols := ["started_at"], rows := [[("started_at", Value.str "garbage")]] }

def exC6 : DataFrame :=
  { cols := ["started_at", "ended_at", "member_casual"]
    rows := [[("started_at", Value.str "2022-03-01 08:00"),
              ("ended_at", Value.str "2022-03-01 08:15"),
              ("member_casual", Value.str "member")]] }

def exC7 : DataFrame :=
  { cols := ["date"], rows := [[("date", Value.str "notadate")]] }

def jan1 : Timestamp := ⟨2022, 1, 1, 0⟩
def jan2 : Timestamp := ⟨2022, 1, 2, 0⟩
def jan3 : Timestamp := ⟨2022, 1, 3, 0⟩

def exC8trips : DataFrame :=
  { cols := ["date"], rows := [[("date", Value.ts jan1)], [("date", Value.ts jan2)]] }

def exC8weather : DataFrame :=
  { cols := ["date", "avg_temp_f"]
    rows := [[("date", Value.ts jan1), ("avg_temp_f", Value.num 40)],
             [("date", Value.ts jan3), ("avg_temp_f", Value.num 50)]] }

def exC10 : DataFrame :=
  { cols := ["date", "snow", "tavg"]
    rows := [[("date", Value.str "2022-01-01"), ("snow", Value.num 0),
              ("tavg", Value.num 40)]] }

/-! ## Claim theorems -/

/-- C1: for every raw table containing none of the date-like columns
`date`, `started_at`, `start_time`, `start_datetime`, `normalize_trips`
signals the fatal missing-column error naming exactly that expected
column set, and the table it returns has no fabricated `date` column. -/
theorem C1_missing_date_error (df : DataFrame)
    (h : ∀ c ∈ DATE_CANDIDATES, c ∉ df.cols) :
    (normalize_trips df).error = some MISSING_DATE_MSG ∧
    "date" ∉ (normalize_trips df).table.cols := by
  have hres : resolveDateCol (standardizeRider df).cols = none := by
    rw [resolveDateCol, List.find?_eq_none]
    intro c hc
    intro hct
    have hmem : c ∈ (standardizeRider df).cols := by simpa using hct
    rcases mem_standardizeRider_cols df c hmem with h1 | h1
    · subst h1
      revert hc
      decide
    · exact h c hc h1
  constructor
  · rw [normalize_trips_of_no_dateCol df hres]
  · rw [normalize_trips_of_no_dateCol df hres]
    intro hmem
    rcases mem_standardizeRider_cols df "date" hmem with h1 | h1
    · exact absurd h1 (by decide)
    · exact h "date" (by decide) h1

/-- Witness for C1 at a concrete one-column table. -/
theorem C1_missing_date_error_witness :
    (∀ c ∈ DATE_CANDIDATES, c ∉ exC1.cols) ∧
    ((normalize_trips exC1).error = some MISSING_DATE_MSG ∧
      "date" ∉ (normalize_trips exC1).table.cols) :=
  ⟨by decide, C1_missing_date_error exC1 (by decide)⟩

/-- C2 counterexample: a raw table with a `usertype` column and no
`member_casual`; `normalize_trips` leaves `usertype` in place and
produces no `member_casual` column, so `usertype` is not among the
recognized alternate rider-type names. -/
theorem C2_usertype_not_renamed :
    "member_casual" ∉ exC2.cols ∧ "usertype" ∈ exC2.cols ∧
    "member_casual" ∉ (normalize_trips exC2).table.cols ∧
    "usertype" ∈ (normalize_trips exC2).table.cols := by decide

/-- C3 counterexample: with `ended_at` fifteen minutes before
`started_at`, the derived `trip_duration_min` of the retained row is
−15, a negative value. -/
theorem C3_negative_duration :
    getVal ((normalize_trips exC3).table.rows.getD 0 []) "trip_duration_min" =
      .num (-15) ∧ ((-15 : Rat) < 0) := by
  constructor
  · have h1 : getVal ((normalize_trips exC3).table.rows.getD 0 []) "trip_duration_min" =
        .num (((-900 : Int) : Rat) / 60) := rfl
    rw [h1]
    norm_num
  · norm_num

/-- C4 counterexample: a row whose timestamp does not parse is retained
(the canonical table still has one row) with a null `date`, not
dropped. -/
theorem C4_unparseable_row_retained :
    (normalize_trips exC4).table.rows.length = 1 ∧
    getVal ((normalize_trips exC4).table.rows.getD 0 []) "date" = .null := by decide

/-- C7 counterexample: a retained row with an unparseable date gets a
null `day_of_week`, which is not one of the seven weekday labels. -/
theorem C7_null_weekday :
    getVal ((normalize_trips exC7).table.rows.getD 0 []) "day_of_week" = .null ∧
    Value.null ∉ WEEKDAY_ORDER.map Value.str := by decide

/-- C9: with no weather table, `fig_rides_vs_temp` works from the
rides-only daily aggregation, whose columns carry no temperature
series, and that outcome is distinct from every with-weather view. -/
theorem C9_weather_absent_rides_only (df : DataFrame) :
    fig_rides_vs_temp_data df none = .ridesOnly (daily_rides df) ∧
    (daily_rides df).cols = ["date", "rides"] ∧
    (∀ c ∈ (daily_rides df).cols, c ∉ MERGED_TEMP_CANDIDATES) ∧
    (∀ m tc, RidesTempView.ridesOnly (daily_rides df) ≠ RidesTempView.withTemp m tc) := by
  refine ⟨rfl, rfl, ?_, ?_⟩
  · intro c hc
    have hc2 : c = "date" ∨ c = "rides" := by
      have h2 : (daily_rides df).cols = ["date", "rides"] := rfl
      rw [h2] at hc
      simpa using hc
    rcases hc2 with rfl | rfl <;> decide
  · intro m tc h
    exact RidesTempView.noConfusion h

/-- C6: the end-to-end example row (started 2022-03-01 08:00, ended
08:15, member) normalizes to date 2022-03-01, day_of_week Tuesday,
trip_duration_min 15.0, month 2022-03. -/
theorem C6_end_to_end_example :
    (normalize_trips exC6).error = none ∧
    getVal ((normalize_trips exC6).table.rows.getD 0 []) "date" =
      .ts ⟨2022, 3, 1, 0⟩ ∧
    getVal ((normalize_trips exC6).table.rows.getD 0 []) "day_of_week" =
      .str "Tuesday" ∧
    getVal ((normalize_trips exC6).table.rows.getD 0 []) "trip_duration_min" =
      .num 15 ∧
    getVal ((normalize_trips exC6).table.rows.getD 0 []) "month" = .str "2022-03" := by
  refine ⟨by decide, by decide, by decide, ?_, by decide⟩
  have h1 : getVal ((normalize_trips exC6).table.rows.getD 0 []) "trip_duration_min" =
      .num (((900 : Int) : Rat) / 60) := rfl
  rw [h1]
  norm_num

def exC2b : DataFrame :=
  { cols := ["rider_type", "started_at"]
    rows := [[("rider_type", Value.str "Subscriber"),
              ("started_at", Value.str "2022-03-01 08:00")]] }

/-- C2 (amended): the alternate rider-type columns the code recognizes
are `rider_type`, `member.casual` and `memberCasual` — not `usertype` or
`user_type`; for every well-formed raw table lacking `member_casual`
whose first present alternate is `alt`, the normalized table has a
`member_casual` column whose per-row values are exactly the original
`alt` values (the value vocabulary is unchanged). -/
theorem C2_alt_rider_renamed (df : DataFrame) (alt : String)
    (hwf : WellFormed df)
    (hmc : df.cols.contains "member_casual" = false)
    (halt : ALT_RIDER_COLS.find? (fun a => df.cols.contains a) = some alt) :
    "member_casual" ∈ (normalize_trips df).table.cols ∧
    (normalize_trips df).table.rows.length = df.rows.length ∧
    ∀ i : Nat, colView (normalize_trips df).table "member_casual" i =
      colView df alt i := by
  have hsr : standardizeRider df = df.rename alt "member_casual" :=
    standardizeRider_eq_rename df alt hmc halt
  have haltmem : alt ∈ df.cols := by simpa using List.find?_some halt
  have hmcnot : "member_casual" ∉ df.cols := by simpa using hmc
  have hmem_sr : "member_casual" ∈ (standardizeRider df).cols := by
    rw [hsr]; exact new_mem_rename_cols df alt _ haltmem
  have hview_sr : ∀ i, colView (standardizeRider df) "member_casual" i =
      colView df alt i := by
    intro i
    rw [hsr]
    simp only [colView, DataFrame.rename, List.getElem?_map]
    cases hrow : df.rows[i]? with
    | none => rfl
    | some r =>
      have hrmem : r ∈ df.rows := by
        obtain ⟨hlt, heq⟩ := List.getElem?_eq_some.mp hrow
        exact heq ▸ List.getElem_mem hlt
      have hkeys : ∀ p ∈ r, p.1 ≠ "member_casual" := by
        intro p hp hpe
        apply hmcnot
        rw [← hwf.2 r hrmem]
        exact List.mem_map.mpr ⟨p, hp, hpe⟩
      simp [getVal_renameKey_new r alt "member_casual" hkeys]
  refine ⟨?_, normalize_table_rows_length df, ?_⟩
  · cases hres : resolveDateCol (standardizeRider df).cols with
    | none => rw [normalize_trips_of_no_dateCol df hres]; exact hmem_sr
    | some c =>
      rw [normalize_trips_of_dateCol df c hres]
      have hc : c ∈ (standardizeRider df).cols := by
        simpa using List.find?_some hres
      apply mem_applyMonth_cols_mono
      apply mem_applyDow_cols_mono
      apply mem_applyDuration_cols_mono
      exact (mem_applyDate_cols _ c "member_casual" hc).mpr (Or.inl hmem_sr)
  · intro i
    cases hres : resolveDateCol (standardizeRider df).cols with
    | none => rw [normalize_trips_of_no_dateCol df hres]; exact hview_sr i
    | some c =>
      rw [normalize_trips_of_dateCol df c hres]
      have hcd : c ∈ DATE_CANDIDATES := List.mem_of_find?_eq_some hres
      have hnc : ("member_casual" : String) ≠ c := by
        intro he
        rw [← he] at hcd
        revert hcd
        decide
      show colView (applyMonth _) "member_casual" i = _
      rw [colView_applyMonth_ne _ _ _ (by decide),
        colView_applyDow_ne _ _ _ (by decide),
        colView_applyDuration_ne _ _ _ (by decide) (by decide) (by decide),
        colView_applyDate_ne _ _ _ _ hnc (by decide)]
      exact hview_sr i

/-- Witness for the amended C2 at a concrete `rider_type` table. -/
theorem C2_alt_rider_renamed_witness :
    (WellFormed exC2b ∧ exC2b.cols.contains "member_casual" = false ∧
      ALT_RIDER_COLS.find? (fun a => exC2b.cols.contains a) = some "rider_type") ∧
    ("member_casual" ∈ (normalize_trips exC2b).table.cols ∧
      (normalize_trips exC2b).table.rows.length = exC2b.rows.length ∧
      ∀ i : Nat, colView (normalize_trips exC2b).table "member_casual" i =
        colView exC2b "rider_type" i) :=
  ⟨⟨⟨by decide, by decide⟩, by decide, by decide⟩,
    C2_alt_rider_renamed exC2b "rider_type" ⟨by decide, by decide⟩ (by decide)
      (by decide)⟩

/-- C7 (amended): whenever normalization resolves a date column, the
output's `day_of_week` column carries exactly the fixed categorical
order Monday < … < Sunday independent of the raw input, and every
retained row with a non-null `date` has a `day_of_week` equal to the
weekday name of that date, one of the seven English weekday names
(rows whose date failed to parse instead carry a null `day_of_week`).
-/
theorem C7_weekday_names_ordered (df : DataFrame) (c : String)
    (hres : resolveDateCol (standardizeRider df).cols = some c) :
    catOrderOf (normalize_trips df).table "day_of_week" = some WEEKDAY_ORDER ∧
    (WEEKDAY_ORDER.indexOf "Monday" < WEEKDAY_ORDER.indexOf "Tuesday" ∧
     WEEKDAY_ORDER.indexOf "Tuesday" < WEEKDAY_ORDER.indexOf "Wednesday" ∧
     WEEKDAY_ORDER.indexOf "Wednesday" < WEEKDAY_ORDER.indexOf "Thursday" ∧
     WEEKDAY_ORDER.indexOf "Thursday" < WEEKDAY_ORDER.indexOf "Friday" ∧
     WEEKDAY_ORDER.indexOf "Friday" < WEEKDAY_ORDER.indexOf "Saturday" ∧
     WEEKDAY_ORDER.indexOf "Saturday" < WEEKDAY_ORDER.indexOf "Sunday") ∧
    ∀ r ∈ (normalize_trips df).table.rows, ∀ t : Timestamp,
      getVal r "date" = .ts t →
        getVal r "day_of_week" = .str (dayNameOf t) ∧ dayNameOf t ∈ WEEKDAY_ORDER := by
  rw [normalize_trips_of_dateCol df c hres]
  refine ⟨?_, by decide, ?_⟩
  · show catOrderOf (applyMonth _) "day_of_week" = _
    rw [catOrderOf, applyMonth_catOrders]
    exact applyDow_catOrders _
  · intro r hr t ht
    obtain ⟨r₀, hr₀, hdow, hdate⟩ := applyMonth_row_preserves _ r hr
    have hinv := dow_invariant _ r₀ hr₀
    refine ⟨?_, dayNameOf_mem t⟩
    rw [hdow, hinv, ← hdate, ht]
    rfl

/-- Witness for the amended C7 at a concrete table with a `date` column. -/
theorem C7_weekday_names_ordered_witness :
    resolveDateCol (standardizeRider exC7).cols = some "date" ∧
    (catOrderOf (normalize_trips exC7).table "day_of_week" = some WEEKDAY_ORDER ∧
     (WEEKDAY_ORDER.indexOf "Monday" < WEEKDAY_ORDER.indexOf "Tuesday" ∧
      WEEKDAY_ORDER.indexOf "Tuesday" < WEEKDAY_ORDER.indexOf "Wednesday" ∧
      WEEKDAY_ORDER.indexOf "Wednesday" < WEEKDAY_ORDER.indexOf "Thursday" ∧
      WEEKDAY_ORDER.indexOf "Thursday" < WEEKDAY_ORDER.indexOf "Friday" ∧
      WEEKDAY_ORDER.indexOf "Friday" < WEEKDAY_ORDER.indexOf "Saturday" ∧
      WEEKDAY_ORDER.indexOf "Saturday" < WEEKDAY_ORDER.indexOf "Sunday") ∧
     ∀ r ∈ (normalize_trips exC7).table.rows, ∀ t : Timestamp,
       getVal r "date" = .ts t →
         getVal r "day_of_week" = .str (dayNameOf t) ∧
         dayNameOf t ∈ WEEKDAY_ORDER) :=
  ⟨by decide, C7_weekday_names_ordered exC7 "date" (by decide)⟩

/-- Columns other than the rider aliases, `member_casual` and `date`
survive the rider-standardization and date stages unchanged. -/
theorem mem_applyDate_standardize_iff (df : DataFrame) (c x : String)
    (hres : resolveDateCol (standardizeRider df).cols = some c)
    (hx1 : x ∉ ALT_RIDER_COLS) (hx2 : x ≠ "member_casual") (hx3 : x ≠ "date") :
    x ∈ (applyDate (standardizeRider df) c).cols ↔ x ∈ df.cols := by
  have hcsr : c ∈ (standardizeRider df).cols := by
    simpa using List.find?_some hres
  rw [mem_applyDate_cols _ c x hcsr]
  constructor
  · rintro (hmem | rfl)
    · rcases mem_standardizeRider_cols df x hmem with h1 | h1
      · exact absurd h1 hx2
      · exact h1
    · exact absurd rfl hx3
  · intro hmem
    exact Or.inl (mem_standardizeRider_cols_mono df x hmem hx1)

/-- The per-index value of a column through the rider and date stages,
for columns those stages do not touch. -/
theorem colView_applyDate_standardize_ne (df : DataFrame) (c x : String) (i : Nat)
    (hx1 : x ∉ ALT_RIDER_COLS) (hx2 : x ≠ "member_casual") (hx3 : x ≠ "date")
    (hxc : x ≠ c) :
    colView (applyDate (standardizeRider df) c) x i = colView df x i := by
  rw [colView_applyDate_ne _ _ _ _ hxc hx3,
    colView_standardizeRider_ne df x i hx1 hx2]

/-- Shared derivation lemma: with no duration column and no alternate
duration column but both timestamp columns present, the normalized
duration of row `i` is `durationMinValue` of the parsed timestamps of
the raw row. -/
theorem colView_normalize_duration_derived (df : DataFrame) (c : String)
    (hres : resolveDateCol (standardizeRider df).cols = some c)
    (htdm : "trip_duration_min" ∉ df.cols)
    (hg : DURATION_GUESSES.find? (fun g => df.cols.contains g) = none)
    (hs : "started_at" ∈ df.cols) (he : "ended_at" ∈ df.cols)
    (i : Nat) (r : Row) (hrow : df.rows[i]? = some r) :
    colView (normalize_trips df).table "trip_duration_min" i =
      some (durationMinValue (toDatetimeValue (getVal r "started_at"))
        (toDatetimeValue (getVal r "ended_at"))) := by
  have hcd : c ∈ DATE_CANDIDATES := List.mem_of_find?_eq_some hres
  have hdateprops : ∀ x ∈ DATE_CANDIDATES,
      x ∉ ALT_RIDER_COLS ∧ x ≠ "member_casual" ∧ x ≠ "trip_duration_min" ∧
      x ≠ "ended_at" := by decide
  obtain ⟨hcalt, hcmc, hctdm, hcend⟩ := hdateprops c hcd
  have h1' : (applyDate (standardizeRider df) c).cols.contains "trip_duration_min"
      = false := by
    have hno : "trip_duration_min" ∉ (applyDate (standardizeRider df) c).cols :=
      fun h => htdm ((mem_applyDate_standardize_iff df c _ hres (by decide)
        (by decide) (by decide)).mp h)
    simpa using hno
  have h2' : DURATION_GUESSES.find?
      (fun g => (applyDate (standardizeRider df) c).cols.contains g) = none := by
    rw [List.find?_eq_none]
    intro g hgmem hcont
    have hgmem2 : g ∈ (applyDate (standardizeRider df) c).cols := by simpa using hcont
    have hgprops : ∀ y ∈ DURATION_GUESSES,
        y ∉ ALT_RIDER_COLS ∧ y ≠ "member_casual" ∧ y ≠ "date" := by decide
    obtain ⟨hg1, hg2, hg3⟩ := hgprops g hgmem
    have hgdf : g ∈ df.cols :=
      (mem_applyDate_standardize_iff df c g hres hg1 hg2 hg3).mp hgmem2
    have := List.find?_eq_none.mp hg g hgmem
    exact this (by simpa using hgdf)
  have h3' : ((applyDate (standardizeRider df) c).cols.contains "started_at" &&
      (applyDate (standardizeRider df) c).cols.contains "ended_at") = true := by
    have hs2 : "started_at" ∈ (applyDate (standardizeRider df) c).cols :=
      (mem_applyDate_standardize_iff df c _ hres (by decide) (by decide)
        (by decide)).mpr hs
    have he2 : "ended_at" ∈ (applyDate (standardizeRider df) c).cols :=
      (mem_applyDate_standardize_iff df c _ hres (by decide) (by decide)
        (by decide)).mpr he
    simp [hs2, he2]
  rw [normalize_trips_of_dateCol df c hres]
  show colView (applyMonth _) "trip_duration_min" i = _
  rw [colView_applyMonth_ne _ _ _ (by decide),
    colView_applyDow_ne _ _ _ (by decide),
    colView_applyDuration_derived _ i h1' h2' h3']
  -- extract row i of the date-stage frame
  have hlen : i < df.rows.length := (List.getElem?_eq_some.mp hrow).1
  have hlen2 : i < (applyDate (standardizeRider df) c).rows.length := by
    rw [applyDate_rows_length, standardizeRider_rows_length]
    exact hlen
  cases hrow2 : (applyDate (standardizeRider df) c).rows[i]? with
  | none =>
    rw [List.getElem?_eq_none_iff] at hrow2
    omega
  | some r₂ =>
    have hview_s : colView (applyDate (standardizeRider df) c) "started_at" i =
        some (getVal r₂ "started_at") := by rw [colView, hrow2]; rfl
    have hview_e : colView (applyDate (standardizeRider df) c) "ended_at" i =
        some (getVal r₂ "ended_at") := by rw [colView, hrow2]; rfl
    have hdf_s : colView df "started_at" i = some (getVal r "started_at") := by
      rw [colView, hrow]; rfl
    have hdf_e : colView df "ended_at" i = some (getVal r "ended_at") := by
      rw [colView, hrow]; rfl
    have hends : toDatetimeValue (getVal r₂ "ended_at") =
        toDatetimeValue (getVal r "ended_at") := by
      have hv := colView_applyDate_standardize_ne df c "ended_at" i (by decide)
        (by decide) (by decide) (Ne.symm hcend)
      rw [hview_e, hdf_e] at hv
      have h2 : getVal r₂ "ended_at" = getVal r "ended_at" := by simpa using hv
      rw [h2]
    have hstarts : toDatetimeValue (getVal r₂ "started_at") =
        toDatetimeValue (getVal r "started_at") := by
      by_cases hcs : c = "started_at"
      · subst hcs
        have hv := colView_applyDate_dateCol (standardizeRider df) "started_at" i
          (by decide)
        rw [hview_s, colView_standardizeRider_ne df _ i (by decide) (by decide),
          hdf_s] at hv
        have h2 : getVal r₂ "started_at" = toDatetimeValue (getVal r "started_at") := by
          simpa using hv
        rw [h2, toDatetimeValue_idem]
      · have hv := colView_applyDate_standardize_ne df c "started_at" i
          (by decide) (by decide) (by decide) (fun h => hcs h.symm)
        rw [hview_s, hdf_s] at hv
        have h2 : getVal r₂ "started_at" = getVal r "started_at" := by simpa using hv
        rw [h2]
    simp only [Option.map_some']
    rw [hstarts, hends]

/-- C4 (amended): when a date-like column is resolved, no rows are
dropped — the canonical table has exactly as many rows as the raw
table; every row whose timestamp parses gets `date` equal to the parsed
calendar date with the time of day truncated to midnight, and every row
whose timestamp fails to parse is retained with a null `date` marker
(so it is excluded only from date-keyed aggregations, not from the
table). -/
theorem C4_date_truncated_rows_kept (df : DataFrame) (c : String)
    (hres : resolveDateCol (standardizeRider df).cols = some c) :
    (normalize_trips df).table.rows.length = df.rows.length ∧
    ∀ i r, df.rows[i]? = some r →
      ((toDatetimeValue (getVal r c) = .null →
          colView (normalize_trips df).table "date" i = some .null) ∧
       ∀ t : Timestamp, toDatetimeValue (getVal r c) = .ts t →
          colView (normalize_trips df).table "date" i =
            some (.ts ⟨t.year, t.month, t.day, 0⟩)) := by
  refine ⟨normalize_table_rows_length df, ?_⟩
  intro i r hrow
  have hcd : c ∈ DATE_CANDIDATES := List.mem_of_find?_eq_some hres
  have hprops : ∀ x ∈ DATE_CANDIDATES,
      x ∉ ALT_RIDER_COLS ∧ x ≠ "member_casual" := by decide
  obtain ⟨hcalt, hcmc⟩ := hprops c hcd
  have hview : colView (normalize_trips df).table "date" i =
      (colView df c i).map (fun v => truncateToDate (toDatetimeValue v)) := by
    rw [normalize_trips_of_dateCol df c hres]
    show colView (applyMonth _) "date" i = _
    rw [colView_applyMonth_ne _ _ _ (by decide),
      colView_applyDow_ne _ _ _ (by decide),
      colView_applyDuration_ne _ _ _ (by decide) (by decide) (by decide),
      colView_applyDate_date,
      colView_standardizeRider_ne df _ i hcalt hcmc]
  constructor
  · intro hnull
    rw [hview, colView, hrow]
    simp only [Option.map_some']
    rw [hnull]
    rfl
  · intro t ht
    rw [hview, colView, hrow]
    simp only [Option.map_some']
    rw [ht]
    rfl

/-- Witness for the amended C4 at a concrete one-row table. -/
theorem C4_date_truncated_rows_kept_witness :
    resolveDateCol (standardizeRider exC4).cols = some "started_at" ∧
    ((normalize_trips exC4).table.rows.length = exC4.rows.length ∧
     ∀ i r, exC4.rows[i]? = some r →
       ((toDatetimeValue (getVal r "started_at") = .null →
           colView (normalize_trips exC4).table "date" i = some .null) ∧
        ∀ t : Timestamp, toDatetimeValue (getVal r "started_at") = .ts t →
           colView (normalize_trips exC4).table "date" i =
             some (.ts ⟨t.year, t.month, t.day, 0⟩))) :=
  ⟨by decide, C4_date_truncated_rows_kept exC4 "started_at" (by decide)⟩

/-- C3 (amended): when `trip_duration_min` is derived from the parsed
`started_at`/`ended_at` timestamps, its value on each retained row is
exactly (end − start) expressed in minutes — a rational number of
minutes that is negative whenever the end precedes the start; the code
enforces no non-negativity (the C3 counterexample exhibits −15). -/
theorem C3_duration_is_signed_minutes (df : DataFrame) (c : String)
    (hres : resolveDateCol (standardizeRider df).cols = some c)
    (htdm : "trip_duration_min" ∉ df.cols)
    (hg : DURATION_GUESSES.find? (fun g => df.cols.contains g) = none)
    (hs : "started_at" ∈ df.cols) (he : "ended_at" ∈ df.cols)
    (i : Nat) (r : Row) (hrow : df.rows[i]? = some r)
    (s e : Timestamp)
    (hps : toDatetimeValue (getVal r "started_at") = .ts s)
    (hpe : toDatetimeValue (getVal r "ended_at") = .ts e) :
    colView (normalize_trips df).table "trip_duration_min" i =
      some (.num ((((totalSeconds e : Int) - (totalSeconds s : Int) : Int) : Rat)
        / 60)) ∧
    (totalSeconds e < totalSeconds s →
      (((totalSeconds e : Int) - (totalSeconds s : Int) : Int) : Rat) / 60 < 0) := by
  constructor
  · rw [colView_normalize_duration_derived df c hres htdm hg hs he i r hrow,
      hps, hpe]
    rfl
  · intro hlt
    apply div_neg_of_neg_of_pos
    · have hz : (totalSeconds e : Int) - (totalSeconds s : Int) < 0 := by omega
      exact_mod_cast Int.cast_lt_zero.mpr hz
    · norm_num

/-- Witness for the amended C3 at the concrete reversed-timestamps row. -/
theorem C3_duration_is_signed_minutes_witness :
    resolveDateCol (standardizeRider exC3).cols = some "started_at" ∧
    (colView (normalize_trips exC3).table "trip_duration_min" 0 =
      some (.num ((((totalSeconds ⟨2022, 3, 1, 28800⟩ : Int) -
        (totalSeconds ⟨2022, 3, 1, 29700⟩ : Int) : Int) : Rat) / 60)) ∧
     (totalSeconds (⟨2022, 3, 1, 28800⟩ : Timestamp) <
        totalSeconds (⟨2022, 3, 1, 29700⟩ : Timestamp) →
      (((totalSeconds (⟨2022, 3, 1, 28800⟩ : Timestamp) : Int) -
        (totalSeconds (⟨2022, 3, 1, 29700⟩ : Timestamp) : Int) : Int) : Rat) / 60
        < 0)) :=
  ⟨by decide, C3_duration_is_signed_minutes exC3 "started_at" (by decide)
    (by decide) (by decide) (by decide) (by decide) 0 _ rfl
    ⟨2022, 3, 1, 29700⟩ ⟨2022, 3, 1, 28800⟩ (by decide) (by decide)⟩

theorem applyDate_tdm_contains_false (df : DataFrame) (c : String)
    (hres : resolveDateCol (standardizeRider df).cols = some c)
    (htdm : "trip_duration_min" ∉ df.cols) :
    (applyDate (standardizeRider df) c).cols.contains "trip_duration_min" = false := by
  have hno : "trip_duration_min" ∉ (applyDate (standardizeRider df) c).cols :=
    fun h => htdm ((mem_applyDate_standardize_iff df c _ hres (by decide)
      (by decide) (by decide)).mp h)
  simpa using hno

theorem applyDate_guess_find_congr (df : DataFrame) (c : String)
    (hres : resolveDateCol (standardizeRider df).cols = some c) :
    DURATION_GUESSES.find?
        (fun g => (applyDate (standardizeRider df) c).cols.contains g) =
      DURATION_GUESSES.find? (fun g => df.cols.contains g) := by
  apply find?_pred_congr
  intro g hgm
  have hgp : ∀ y ∈ DURATION_GUESSES,
      y ∉ ALT_RIDER_COLS ∧ y ≠ "member_casual" ∧ y ≠ "date" := by decide
  obtain ⟨hg1, hg2, hg3⟩ := hgp g hgm
  have hiff := mem_applyDate_standardize_iff df c g hres hg1 hg2 hg3
  by_cases hgd : g ∈ df.cols
  · have h2 : g ∈ (applyDate (standardizeRider df) c).cols := hiff.mpr hgd
    simp [hgd, h2]
  · have h2 : g ∉ (applyDate (standardizeRider df) c).cols := fun h => hgd (hiff.mp h)
    simp [hgd, h2]

/-- C5: duration resolution order — (a) an existing `trip_duration_min`
column is kept with its values unchanged; (b) otherwise the first
present column among trip_duration, duration_min, ride_length_min,
ride_duration_min, tripduration_min (in that order) supplies the
values; (c) otherwise, when both `started_at` and `ended_at` exist, the
duration is derived per row from the parsed timestamps as end − start
in minutes; (d) if none of these applies, the output simply has no
`trip_duration_min` column. -/
theorem C5_duration_resolution_order (df : DataFrame) (c : String)
    (hres : resolveDateCol (standardizeRider df).cols = some c) :
    ("trip_duration_min" ∈ df.cols →
      ∀ i, colView (normalize_trips df).table "trip_duration_min" i =
        colView df "trip_duration_min" i) ∧
    (∀ g, "trip_duration_min" ∉ df.cols →
      DURATION_GUESSES.find? (fun g => df.cols.contains g) = some g →
      ∀ i, colView (normalize_trips df).table "trip_duration_min" i =
        colView df g i) ∧
    ("trip_duration_min" ∉ df.cols →
      DURATION_GUESSES.find? (fun g => df.cols.contains g) = none →
      "started_at" ∈ df.cols → "ended_at" ∈ df.cols →
      ∀ i r, df.rows[i]? = some r →
        colView (normalize_trips df).table "trip_duration_min" i =
          some (durationMinValue (toDatetimeValue (getVal r "started_at"))
            (toDatetimeValue (getVal r "ended_at")))) ∧
    ("trip_duration_min" ∉ df.cols →
      DURATION_GUESSES.find? (fun g => df.cols.contains g) = none →
      ¬("started_at" ∈ df.cols ∧ "ended_at" ∈ df.cols) →
      "trip_duration_min" ∉ (normalize_trips df).table.cols) := by
  have hcd : c ∈ DATE_CANDIDATES := List.mem_of_find?_eq_some hres
  have hdp : ∀ x ∈ DATE_CANDIDATES, x ≠ "trip_duration_min" := by decide
  refine ⟨?_, ?_, ?_, ?_⟩
  · intro hmem i
    have hc2 : (applyDate (standardizeRider df) c).cols.contains "trip_duration_min"
        = true := by
      have h2 := (mem_applyDate_standardize_iff df c _ hres (by decide) (by decide)
        (by decide)).mpr hmem
      simpa using h2
    rw [normalize_trips_of_dateCol df c hres]
    show colView (applyMonth _) _ i = _
    rw [colView_applyMonth_ne _ _ _ (by decide),
      colView_applyDow_ne _ _ _ (by decide),
      applyDuration_of_present _ hc2,
      colView_applyDate_standardize_ne df c _ i (by decide) (by decide) (by decide)
        (fun h => hdp c hcd h.symm)]
  · intro g htdm hfind i
    have hgm : g ∈ DURATION_GUESSES := List.mem_of_find?_eq_some hfind
    have hgp : ∀ y ∈ DURATION_GUESSES,
        y ∉ ALT_RIDER_COLS ∧ y ≠ "member_casual" ∧ y ≠ "date" := by decide
    obtain ⟨hg1, hg2, hg3⟩ := hgp g hgm
    have hgc : ∀ y ∈ DURATION_GUESSES, ∀ x ∈ DATE_CANDIDATES, y ≠ x := by decide
    have h1' := applyDate_tdm_contains_false df c hres htdm
    have h2' : DURATION_GUESSES.find?
        (fun g => (applyDate (standardizeRider df) c).cols.contains g) = some g := by
      rw [applyDate_guess_find_congr df c hres]
      exact hfind
    rw [normalize_trips_of_dateCol df c hres]
    show colView (applyMonth _) _ i = _
    rw [colView_applyMonth_ne _ _ _ (by decide),
      colView_applyDow_ne _ _ _ (by decide),
      colView_applyDuration_guess _ g i h1' h2',
      colView_applyDate_standardize_ne df c g i hg1 hg2 hg3 (hgc g hgm c hcd)]
  · intro htdm hfind hs he i r hrow
    exact colView_normalize_duration_derived df c hres htdm hfind hs he i r hrow
  · intro htdm hfind hnotboth
    have h1' := applyDate_tdm_contains_false df c hres htdm
    have h2' : DURATION_GUESSES.find?
        (fun g => (applyDate (standardizeRider df) c).cols.contains g) = none := by
      rw [applyDate_guess_find_congr df c hres]
      exact hfind
    have h3' : ((applyDate (standardizeRider df) c).cols.contains "started_at" &&
        (applyDate (standardizeRider df) c).cols.contains "ended_at") = false := by
      by_cases hsd : "started_at" ∈ df.cols
      · by_cases hed : "ended_at" ∈ df.cols
        · exact absurd ⟨hsd, hed⟩ hnotboth
        · have hno : "ended_at" ∉ (applyDate (standardizeRider df) c).cols :=
            fun h => hed ((mem_applyDate_standardize_iff df c _ hres (by decide)
              (by decide) (by decide)).mp h)
          have hb : (applyDate (standardizeRider df) c).cols.contains "ended_at"
              = false := by simpa using hno
          simp only [hb, Bool.and_false]
      · have hno : "started_at" ∉ (applyDate (standardizeRider df) c).cols :=
          fun h => hsd ((mem_applyDate_standardize_iff df c _ hres (by decide)
            (by decide) (by decide)).mp h)
        have hb : (applyDate (standardizeRider df) c).cols.contains "started_at"
            = false := by simpa using hno
        simp only [hb, Bool.false_and]
    rw [normalize_trips_of_dateCol df c hres]
    intro hmem
    show False
    rw [applyDuration_of_unavailable _ h1' h2' h3'] at hmem
    rcases mem_applyMonth_cols _ _ hmem with hmem2 | h
    · rcases mem_applyDow_cols _ _ hmem2 with hmem3 | h
      · exact htdm ((mem_applyDate_standardize_iff df c _ hres (by decide)
          (by decide) (by decide)).mp hmem3)
      · exact absurd h (by decide)
    · exact absurd h (by decide)

/-- Witness for C5 at the concrete end-to-end example table. -/
theorem C5_duration_resolution_order_witness :
    resolveDateCol (standardizeRider exC6).cols = some "started_at" ∧
    (("trip_duration_min" ∈ exC6.cols →
       ∀ i, colView (normalize_trips exC6).table "trip_duration_min" i =
         colView exC6 "trip_duration_min" i) ∧
     (∀ g, "trip_duration_min" ∉ exC6.cols →
       DURATION_GUESSES.find? (fun g => exC6.cols.contains g) = some g →
       ∀ i, colView (normalize_trips exC6).table "trip_duration_min" i =
         colView exC6 g i) ∧
     ("trip_duration_min" ∉ exC6.cols →
       DURATION_GUESSES.find? (fun g => exC6.cols.contains g) = none →
       "started_at" ∈ exC6.cols → "ended_at" ∈ exC6.cols →
       ∀ i r, exC6.rows[i]? = some r →
         colView (normalize_trips exC6).table "trip_duration_min" i =
           some (durationMinValue (toDatetimeValue (getVal r "started_at"))
             (toDatetimeValue (getVal r "ended_at")))) ∧
     ("trip_duration_min" ∉ exC6.cols →
       DURATION_GUESSES.find? (fun g => exC6.cols.contains g) = none →
       ¬("started_at" ∈ exC6.cols ∧ "ended_at" ∈ exC6.cols) →
       "trip_duration_min" ∉ (normalize_trips exC6).table.cols)) :=
  ⟨by decide, C5_duration_resolution_order exC6 "started_at" (by decide)⟩

/-- The merged frame of the concrete C8 example. -/
def mergedC8 : DataFrame := merge_inner (daily_rides exC8trips) exC8weather "date"

/-- C8: the weather join is an inner join on exact date equality — a
date appears in a merged frame exactly when it appears on both sides —
and over the daily aggregation of a canonical table with dates
2022-01-01 and 2022-01-02 joined to a weather table with dates
2022-01-01 and 2022-01-03, the joined view holds exactly one row, for
2022-01-01; neither 2022-01-02 nor 2022-01-03 appears. -/
theorem C8_inner_join_exact_date :
    (∀ (l w : DataFrame) (t : Timestamp),
      (∃ r ∈ (merge_inner l w "date").rows, getVal r "date" = .ts t) ↔
        ((∃ r ∈ l.rows, getVal r "date" = .ts t) ∧
         (∃ r ∈ w.rows, getVal r "date" = .ts t))) ∧
    fig_rides_vs_temp_data exC8trips (some exC8weather) =
      .withTemp mergedC8 (some "avg_temp_f") ∧
    mergedC8.rows.map (fun r => getVal r "date") = [Value.ts jan1] := by
  refine ⟨?_, by decide, by decide⟩
  intro l w t
  constructor
  · rintro ⟨r', hr', hdate⟩
    simp only [merge_inner, List.mem_flatMap, List.mem_map, List.mem_filter] at hr'
    obtain ⟨lr, hlr, rr, ⟨hrr, hP⟩, rfl⟩ := hr'
    cases hva : getVal lr "date" with
    | ts a =>
      cases hvb : getVal rr "date" with
      | ts b =>
        rw [hva, hvb] at hP
        have hab : a = b := by simpa using hP
        have hval : getVal (lr ++ rr.filter (fun p => p.1 != "date")) "date" =
            .ts a := by
          rw [getVal_append_left _ _ _
            (by rw [hva]; exact fun h => Value.noConfusion h), hva]
        rw [hval] at hdate
        have hat : a = t := by
          have := Value.ts.inj hdate
          exact this
        exact ⟨⟨lr, hlr, by rw [hva, hat]⟩, ⟨rr, hrr, by rw [hvb, ← hab, hat]⟩⟩
      | null => rw [hva, hvb] at hP; exact Bool.noConfusion hP
      | str sStr => rw [hva, hvb] at hP; exact Bool.noConfusion hP
      | num q => rw [hva, hvb] at hP; exact Bool.noConfusion hP
    | null => rw [hva] at hP; exact Bool.noConfusion hP
    | str sStr => rw [hva] at hP; exact Bool.noConfusion hP
    | num q => rw [hva] at hP; exact Bool.noConfusion hP
  · rintro ⟨⟨lr, hlr, hl⟩, ⟨rr, hrr, hw⟩⟩
    refine ⟨lr ++ rr.filter (fun p => p.1 != "date"), ?_, ?_⟩
    · simp only [merge_inner, List.mem_flatMap, List.mem_map, List.mem_filter]
      refine ⟨lr, hlr, rr, ⟨hrr, ?_⟩, rfl⟩
      rw [hl, hw]
      simp
    · rw [getVal_append_left _ _ _ (by rw [hl]; exact fun h => Value.noConfusion h),
        hl]

theorem mapCol_cols_of_mem (df : DataFrame) (c : String) (g : Value → Value)
    (h : c ∈ df.cols) : (df.mapCol c g).cols = df.cols := by
  have hb : df.cols.contains c = true := by simpa using h
  show (if df.cols.contains c = true then df.cols else df.cols ++ [c]) = df.cols
  rw [hb, if_pos rfl]

theorem selectCols_cols (df : DataFrame) (cs : List String) :
    (df.selectCols cs).cols = cs := rfl

theorem selectCols_rows_length (df : DataFrame) (cs : List String) :
    (df.selectCols cs).rows.length = df.rows.length := by
  simp [DataFrame.selectCols]

/-- C10: for every readable weather file with a `date` column,
`load_weather` keeps only the `date` column and the single resolved
temperature column, dropping every other source column; a tenths-scaled
`avg_temp_f_tenths` source is carried under the new name `avg_temp_f`
with each row's value divided by 10. -/
theorem C10_weather_projection (w res : DataFrame)
    (hdate : "date" ∈ w.cols)
    (hload : load_weather (some w) = some res) :
    (∀ c ∈ res.cols, c = "date" ∨
      (weatherTempSource w ≠ some "avg_temp_f_tenths" ∧
        some c = weatherTempSource w) ∨
      (weatherTempSource w = some "avg_temp_f_tenths" ∧ c = "avg_temp_f")) ∧
    "date" ∈ res.cols ∧
    (∀ tc, weatherTempSource w = some tc → tc ≠ "avg_temp_f_tenths" →
      tc ∈ res.cols) ∧
    (weatherTempSource w = some "avg_temp_f_tenths" →
      ("avg_temp_f" ∈ res.cols ∧
       res.rows.length = w.rows.length ∧
       ∀ i, colView res "avg_temp_f" i =
         (w.rows[i]?).map (fun r => div10Value (getVal r "avg_temp_f_tenths")))) := by
  have h1 : (w.mapCol "date" toDatetimeValue).cols = w.cols :=
    mapCol_cols_of_mem w _ _ hdate
  have hw'cols :
      ((w.mapCol "date" toDatetimeValue).mapCol "date" truncateToDate).cols =
        w.cols := by
    rw [mapCol_cols_of_mem _ _ _ (h1 ▸ hdate), h1]
  have hfind : WEATHER_TEMP_CANDIDATES.find?
      (fun c => ((w.mapCol "date" toDatetimeValue).mapCol "date"
        truncateToDate).cols.contains c) = weatherTempSource w := by
    rw [weatherTempSource]
    simp only [hw'cols]
  simp only [load_weather] at hload
  rw [hfind] at hload
  by_cases htenths : weatherTempSource w = some "avg_temp_f_tenths"
  · rw [htenths,
      if_pos (by decide :
        ((some "avg_temp_f_tenths" == some "avg_temp_f_tenths") = true))] at hload
    dsimp only at hload
    rw [Option.some.injEq] at hload
    subst hload
    set W2 := ((w.mapCol "date" toDatetimeValue).mapCol "date"
      truncateToDate).setCol "avg_temp_f"
      (fun r => div10Value (getVal r "avg_temp_f_tenths")) with hW2
    have havgW2 : "avg_temp_f" ∈ W2.cols :=
      (mem_setCol_cols_iff _ _ _ _).mpr (Or.inr rfl)
    have hdateW2 : "date" ∈ W2.cols :=
      (mem_setCol_cols_iff _ _ _ _).mpr (Or.inl (hw'cols ▸ hdate))
    refine ⟨?_, ?_, ?_, ?_⟩
    · intro c hc
      rw [selectCols_cols, List.mem_filter] at hc
      have hor := hc.2
      rw [Bool.or_eq_true] at hor
      rcases hor with hcb | hcb
      · exact Or.inl (by simpa using hcb)
      · exact Or.inr (Or.inr ⟨htenths, by simpa using hcb⟩)
    · rw [selectCols_cols, List.mem_filter]
      exact ⟨hdateW2, by simp⟩
    · intro tc htc hne
      rw [htenths] at htc
      exact absurd (Option.some.inj htc).symm hne
    · intro _
      have havgcs : "avg_temp_f" ∈ W2.cols.filter
          (fun c => c == "date" || some c == some "avg_temp_f") := by
        rw [List.mem_filter]
        exact ⟨havgW2, by simp⟩
      refine ⟨?_, ?_, ?_⟩
      · rw [selectCols_cols]
        exact havgcs
      · rw [selectCols_rows_length, hW2, setCol_rows_length, mapCol_rows_length,
          mapCol_rows_length]
      · intro i
        rw [colView_selectCols _ _ _ _ havgcs, hW2, colView_setCol_self,
          DataFrame.mapCol, DataFrame.mapCol, setCol_rows_getElem,
          setCol_rows_getElem, Option.map_map, Option.map_map]
        cases w.rows[i]? with
        | none => rfl
        | some r =>
          simp only [Option.map_some']
          show some _ = some _
          congr 1
          simp only [Function.comp_apply]
          rw [getVal_setRowVal_ne _ _ _ _
              (by decide : ("avg_temp_f_tenths" : String) ≠ "date"),
            getVal_setRowVal_ne _ _ _ _
              (by decide : ("avg_temp_f_tenths" : String) ≠ "date")]
  · rw [if_neg (by simp [htenths])] at hload
    dsimp only at hload
    rw [Option.some.injEq] at hload
    subst hload
    refine ⟨?_, ?_, ?_, fun h => absurd h htenths⟩
    · intro c hc
      rw [selectCols_cols, List.mem_filter] at hc
      have hor := hc.2
      rw [Bool.or_eq_true] at hor
      rcases hor with hcb | hcb
      · exact Or.inl (by simpa using hcb)
      · exact Or.inr (Or.inl ⟨htenths, by simpa using hcb⟩)
    · rw [selectCols_cols, List.mem_filter]
      exact ⟨hw'cols ▸ hdate, by simp⟩
    · intro tc htc _
      rw [selectCols_cols, List.mem_filter]
      have htcw : tc ∈ w.cols := by
        have := List.find?_some htc
        simpa using this
      exact ⟨hw'cols ▸ htcw, by simp [htc]⟩

/-- The frame `load_weather` produces for the concrete C10 example. -/
def resC10 : DataFrame :=
  { cols := ["date", "tavg"]
    rows := [[("date", Value.ts ⟨2022, 1, 1, 0⟩), ("tavg", Value.num 40)]] }

/-- Witness for C10 at a concrete three-column weather file whose
resolved temperature column is `tavg`. -/
theorem C10_weather_projection_witness :
    ("date" ∈ exC10.cols ∧ load_weather (some exC10) = some resC10) ∧
    ((∀ c ∈ resC10.cols, c = "date" ∨
      (weatherTempSource exC10 ≠ some "avg_temp_f_tenths" ∧
        some c = weatherTempSource exC10) ∨
      (weatherTempSource exC10 = some "avg_temp_f_tenths" ∧ c = "avg_temp_f")) ∧
     "date" ∈ resC10.cols ∧
     (∀ tc, weatherTempSource exC10 = some tc → tc ≠ "avg_temp_f_tenths" →
       tc ∈ resC10.cols) ∧
     (weatherTempSource exC10 = some "avg_temp_f_tenths" →
       ("avg_temp_f" ∈ resC10.cols ∧
        resC10.rows.length = exC10.rows.length ∧
        ∀ i, colView resC10 "avg_temp_f" i =
          (exC10.rows[i]?).map
            (fun r => div10Value (getVal r "avg_temp_f_tenths"))))) :=
  ⟨⟨by decide, by decide⟩,
    C10_weather_projection exC10 resC10 (by decide) (by decide)⟩

end Citibike
